import Mathlib

/-!
Verification of the result-acquisition and candidate-filtering pipeline of the
Google Maps Business Extractor (src/src/App.tsx).

The embedding follows `handleSearch` and its helpers. Provider numeric fields
(review counts, ratings) are modelled as naturals; optional JS fields are
`Option`; JS truthiness of strings (empty string is falsy) is modelled
explicitly. The provider is modelled as the responses the code consumes: the
single-shot rich search response, the sequence of legacy paged responses, and a
per-candidate detail-fetch outcome.
-/

namespace LeadExtractor

/-- CRM status values of a lead record (`PlaceData.status` in App.tsx). -/
inductive CrmStatus
  | Pendiente
  | Contactado
  | Seguimiento
  | Agendado
  | Muerto
  deriving Repr, DecidableEq, BEq

/-- The two data-richness modes (`SearchMode` in App.tsx). -/
inductive SearchMode
  | PRO
  | BUSINESS
  deriving Repr, DecidableEq, BEq

/-- The canonical lead record (`PlaceData` interface in App.tsx). Fields the
code may leave `undefined` at runtime are `Option`. -/
structure PlaceData where
  name : Option String
  address : Option String
  website : Option String
  phone : Option String
  rating : Option Nat
  reviews : Option Nat
  place_id : Option String
  google_maps_link : Option String
  status : CrmStatus
  notes : String
  deriving Repr, DecidableEq

/-- The per-search configuration: the React state values `handleSearch` reads
(searchMode, minReviews, maxReviews, onlyNoWebsite, onlyOperational,
targetLeads). -/
structure Config where
  searchMode : SearchMode
  minReviews : Nat
  maxReviews : Nat
  onlyNoWebsite : Bool
  onlyOperational : Bool
  targetLeads : Nat
  deriving Repr, DecidableEq

/-- A raw result of the new Places API (`Place`), as consumed by the fast path
and by `fetchFields` on the complex path. -/
structure RawPlaceNew where
  displayName : Option String
  formattedAddress : Option String
  websiteURI : Option String
  nationalPhoneNumber : Option String
  rating : Option Nat
  userRatingCount : Option Nat
  id : Option String
  googleMapsURI : Option String
  businessStatus : Option String
  deriving Repr, DecidableEq

/-- A raw legacy text-search result (`google.maps.places.PlaceResult`), as
consumed by `getAllCandidates`. -/
structure PlaceResult where
  name : Option String
  formatted_address : Option String
  rating : Option Nat
  user_ratings_total : Option Nat
  place_id : Option String
  business_status : Option String
  deriving Repr, DecidableEq

/-- One legacy text-search callback invocation: an OK page with its results and
the value of `pagination && pagination.hasNextPage`, a ZERO_RESULTS status, or
any other (error) status. -/
inductive ProviderPage
  | ok (results : List PlaceResult) (hasNextPage : Bool)
  | zeroResults
  | errorStatus
  deriving Repr, DecidableEq

/-- Outcome of `place.fetchFields` for one candidate: the rejected promise
(caught by the per-candidate try/catch) or the populated `Place`. -/
inductive FetchOutcome
  | failure
  | success (place : RawPlaceNew)
  deriving Repr, DecidableEq

/-- `true` iff `fetchFields` rejected for this candidate. -/
def FetchOutcome.isFailure : FetchOutcome → Bool
  | .failure => true
  | .success _ => false

/-- The provider responses one search invocation consumes: the single-shot
`Place.searchByText` call (which may reject), the legacy paged responses in
order, and the detail-fetch outcome per candidate. -/
structure Provider where
  simpleCall : Except String (List RawPlaceNew)
  pages : List ProviderPage
  fetchDetails : PlaceResult → FetchOutcome

/-- JS string truthiness of an optional string: `undefined` and `""` are
falsy. -/
def jsTruthyStr : Option String → Bool
  | none => false
  | some s => s != ""

/-- `a` as an optional string in JS `||` position: `undefined` and `""` give
nothing, otherwise the string itself. -/
def jsStr : Option String → Option String
  | none => none
  | some s => if s = "" then none else some s

/-- Line 149: `needsComplexFetch = targetLeads > 20 || minReviews > 0 ||
maxReviews < 10000 || onlyNoWebsite || !onlyOperational`. -/
def needsComplexFetch (cfg : Config) : Bool :=
  decide (cfg.targetLeads > 20) || decide (cfg.minReviews > 0) ||
    decide (cfg.maxReviews < 10000) || cfg.onlyNoWebsite || !cfg.onlyOperational

/-- Line 159: the lean field mask requested in PRO mode. -/
def proFields : List String :=
  ["displayName", "formattedAddress", "location", "id", "googleMapsURI", "businessStatus"]

/-- Line 160: the rich field mask requested in BUSINESS mode. -/
def businessFields : List String :=
  ["displayName", "formattedAddress", "websiteURI", "nationalPhoneNumber", "rating",
    "userRatingCount", "location", "id", "googleMapsURI", "businessStatus"]

/-- Line 162: `selectedFields = searchMode === 'PRO' ? proFields : businessFields`. -/
def selectedFields (cfg : Config) : List String :=
  if cfg.searchMode = .PRO then proFields else businessFields

/-- Lines 174-177: the fast-path post-hoc operational filter. -/
def keepOperationalSimple (cfg : Config) (p : RawPlaceNew) : Bool :=
  !(cfg.onlyOperational && !(p.businessStatus == some "OPERATIONAL"))

/-- Lines 178-189: the fast-path record construction. -/
def normalizeSimple (cfg : Config) (p : RawPlaceNew) : PlaceData :=
  { name := p.displayName
    address := p.formattedAddress
    website := if cfg.searchMode = .PRO then none else p.websiteURI
    phone := if cfg.searchMode = .PRO then none else p.nationalPhoneNumber
    rating := if cfg.searchMode = .PRO then none else p.rating
    reviews := if cfg.searchMode = .PRO then none else p.userRatingCount
    place_id := p.id
    google_maps_link := p.googleMapsURI
    status := .Pendiente
    notes := "" }

/-- Lines 174-189: the whole fast path over the single-shot response. -/
def simplePath (cfg : Config) (places : List RawPlaceNew) : List PlaceData :=
  (places.filter (keepOperationalSimple cfg)).map (normalizeSimple cfg)

/-- Lines 203-211: the per-candidate prefilter applied inside
`getAllCandidates` (`validCandidates`). -/
def isCandidateAcceptable (cfg : Config) (p : PlaceResult) : Bool :=
  let reviewCount := p.user_ratings_total.getD 0
  let isOperational := p.business_status == some "OPERATIONAL"
  if cfg.onlyOperational && !isOperational then false
  else if reviewCount < cfg.minReviews then false
  else if reviewCount > cfg.maxReviews then false
  else true

/-- Lines 196-228: the pagination collector. `collected` is the accumulation
buffer; each `ProviderPage` is one callback invocation. On an OK page the
prefilter survivors are appended; if the accumulated count is still below
`targetLeads` and a next page exists the next response is consumed, otherwise
the buffer is truncated to `targetLeads` and returned. On ZERO_RESULTS or any
error status the buffer is returned as is. An exhausted response list
corresponds to a provider that never calls back, returning the buffer. -/
def getAllCandidates (cfg : Config) : List ProviderPage → List PlaceResult → List PlaceResult
  | [], collected => collected
  | page :: rest, collected =>
    match page with
    | .ok results hasNextPage =>
      let validCandidates := results.filter (isCandidateAcceptable cfg)
      let collected' := collected ++ validCandidates
      if collected'.length < cfg.targetLeads && hasNextPage then
        getAllCandidates cfg rest collected'
      else
        collected'.take cfg.targetLeads
    | .zeroResults => collected
    | .errorStatus => collected

/-- Lines 236-264: enrichment of one surviving candidate. A falsy `place_id`,
a rejected detail fetch, or the post-fetch no-website filter yield `none`;
otherwise the complex-path record is built. -/
def enrichOne (cfg : Config) (fetch : PlaceResult → FetchOutcome) (c : PlaceResult) :
    Option PlaceData :=
  if !(jsTruthyStr c.place_id) then none
  else
    match fetch c with
    | .failure => none
    | .success place =>
      if cfg.onlyNoWebsite && jsTruthyStr place.websiteURI then none
      else
        some
          { name := some ((jsStr place.displayName <|> jsStr c.name).getD "N/A")
            address :=
              some ((jsStr place.formattedAddress <|> jsStr c.formatted_address).getD "N/A")
            website := if cfg.searchMode = .PRO then none else place.websiteURI
            phone := if cfg.searchMode = .PRO then none else place.nationalPhoneNumber
            rating := if cfg.searchMode = .PRO then none else c.rating
            reviews := if cfg.searchMode = .PRO then none else c.user_ratings_total
            place_id := c.place_id
            google_maps_link := place.googleMapsURI
            status := .Pendiente
            notes := "" }

/-- Lines 236-267: `Promise.all(detailedPromises)` followed by the non-null
filter. -/
def enrichBatch (cfg : Config) (fetch : PlaceResult → FetchOutcome)
    (candidates : List PlaceResult) : List PlaceData :=
  (candidates.map (enrichOne cfg fetch)).filterMap id

/-- Line 271: the sort key `reviews || 0`. -/
def sortKey (p : PlaceData) : Nat :=
  p.reviews.getD 0

/-- One step of the stable descending-by-`sortKey` sort: insert `a` before the
first element whose key is at most `a`'s. Together with `sortByReviews` this
realises the ES2019 stable `Array.prototype.sort` with comparator
`(b.reviews || 0) - (a.reviews || 0)` from line 271 (a stable sort for a total
preorder is unique, so any stable implementation is this one). -/
def insertByKey (a : PlaceData) : List PlaceData → List PlaceData
  | [] => [a]
  | b :: l => if sortKey b ≤ sortKey a then a :: b :: l else b :: insertByKey a l

/-- Line 271: `finalResults.sort((a, b) => (b.reviews || 0) - (a.reviews || 0))`
as a stable descending sort. -/
def sortByReviews : List PlaceData → List PlaceData
  | [] => []
  | a :: l => insertByKey a (sortByReviews l)

/-- Lines 164-268: the unsorted `finalResults` of the chosen path, in
discovery order, or the message of a thrown provider error. -/
def rawResults (cfg : Config) (prov : Provider) : Except String (List PlaceData) :=
  if needsComplexFetch cfg then
    .ok (enrichBatch cfg prov.fetchDetails (getAllCandidates cfg prov.pages []))
  else
    match prov.simpleCall with
    | .error msg => .error msg
    | .ok places => .ok (simplePath cfg places)

/-- Terminal outcome of one search invocation. -/
inductive SearchOutcome
  | success (results : List PlaceData)
  | failure (message : String)
  deriving Repr, DecidableEq

/-- Lines 148-282: the pipeline from path selection to the sorted final set,
with the catch block of lines 278-282 attaching the provider message. -/
def handleSearchModel (cfg : Config) (prov : Provider) : SearchOutcome :=
  match rawResults cfg prov with
  | .ok rs => .success (sortByReviews rs)
  | .error msg => .failure ("Search failed: " ++ msg)

/-- The search-relevant component state (`results`, `status`,
`errorMessage`). -/
inductive SearchStatus
  | idle
  | loading
  | success
  | error
  deriving Repr, DecidableEq

/-- The slice of React state `handleSearch` writes. -/
structure AppState where
  results : List PlaceData
  status : SearchStatus
  errorMessage : String
  deriving Repr, DecidableEq

/-- Lines 144-146: entering the search clears the working set and the error
message and marks the state loading. -/
def startSearch (st : AppState) : AppState :=
  { st with results := [], status := .loading, errorMessage := "" }

/-- Lines 273-282: the terminal state writes (on failure `results` keeps the
value `startSearch` left, namely `[]`). -/
def finishSearch (st : AppState) (cfg : Config) (prov : Provider) : AppState :=
  match handleSearchModel cfg prov with
  | .success rs => { st with results := rs, status := .success }
  | .failure msg => { st with status := .error, errorMessage := msg }

/-- Lines 144-282: the full state transition of one `handleSearch` run. -/
def handleSearchStep (st : AppState) (cfg : Config) (prov : Provider) : AppState :=
  finishSearch (startSearch st) cfg prov

/-- Line 555: the `targetLeads` input handler stores
`Math.min(100, Number(value))`. -/
def setTargetLeadsClamp (v : Int) : Int :=
  min 100 v

/-- The `place_id` values present on the records of a result set. -/
def externalIds (l : List PlaceData) : List String :=
  l.filterMap (fun r => r.place_id)

/-- The raw results delivered across a sequence of provider pages. -/
def pagesResults (pages : List ProviderPage) : List PlaceResult :=
  pages.flatMap (fun pg =>
    match pg with
    | .ok results _ => results
    | .zeroResults => []
    | .errorStatus => [])

/-- A record carries the default CRM fields a fresh search produces. -/
def freshRecord (r : PlaceData) : Bool :=
  r.status == CrmStatus.Pendiente && r.notes == ""

end LeadExtractor

namespace LeadExtractor

/-! ### Basic characterizations -/

/-- The prefilter accepts exactly when the operational requirement and both
review-count bounds hold. -/
lemma isCandidateAcceptable_iff (cfg : Config) (p : PlaceResult) :
    isCandidateAcceptable cfg p = true ↔
      ((cfg.onlyOperational = true → p.business_status == some "OPERATIONAL") ∧
        cfg.minReviews ≤ p.user_ratings_total.getD 0 ∧
        p.user_ratings_total.getD 0 ≤ cfg.maxReviews) := by
  unfold isCandidateAcceptable
  dsimp only
  split_ifs with h1 h2 h3 <;>
    simp_all [Bool.and_eq_true, Bool.not_eq_true']

/-- C2: strategy selection is a total deterministic function of the
configuration (it is a Lean function, hence total and deterministic): the
complex path is taken iff targetCount exceeds 20, minReviews is positive,
maxReviews is below 10000, excludeHasWebsite is set, or operationalOnly is
cleared; the field tier is the PRO mask exactly in PRO mode; and the pipeline
dispatches on exactly this predicate. -/
theorem strategy_selection_characterization : ∀ cfg : Config,
    (needsComplexFetch cfg = true ↔
      (20 < cfg.targetLeads ∨ 0 < cfg.minReviews ∨ cfg.maxReviews < 10000 ∨
        cfg.onlyNoWebsite = true ∨ cfg.onlyOperational = false)) ∧
    selectedFields cfg =
      (if cfg.searchMode = SearchMode.PRO then proFields else businessFields) ∧
    (∀ prov : Provider, rawResults cfg prov =
      if needsComplexFetch cfg then
        Except.ok (enrichBatch cfg prov.fetchDetails (getAllCandidates cfg prov.pages []))
      else
        match prov.simpleCall with
        | .error msg => .error msg
        | .ok places => .ok (simplePath cfg places)) := by
  intro cfg
  refine ⟨?_, rfl, fun prov => rfl⟩
  simp only [needsComplexFetch, Bool.or_eq_true, decide_eq_true_iff, Bool.not_eq_true']
  tauto

/-- C6: the prefilter is monotone under relaxation: lowering `minReviews`,
raising `maxReviews`, or disabling `operationalOnly` never rejects a candidate
it accepted. -/
theorem prefilter_monotone :
    ∀ (cfg cfg2 : Config) (p : PlaceResult),
      cfg2.minReviews ≤ cfg.minReviews →
      cfg.maxReviews ≤ cfg2.maxReviews →
      (cfg2.onlyOperational = true → cfg.onlyOperational = true) →
      isCandidateAcceptable cfg p = true →
      isCandidateAcceptable cfg2 p = true := by
  intro cfg cfg2 p hmin hmax hop hacc
  rw [isCandidateAcceptable_iff] at hacc ⊢
  obtain ⟨h1, h2, h3⟩ := hacc
  exact ⟨fun h => h1 (hop h), le_trans hmin h2, le_trans h3 hmax⟩

/-- C6 witness: a concrete accepted candidate stays accepted when every bound
is relaxed. -/
theorem prefilter_monotone_witness :
    isCandidateAcceptable
      { searchMode := .BUSINESS, minReviews := 1, maxReviews := 10000,
        onlyNoWebsite := false, onlyOperational := false, targetLeads := 30 }
      { name := some "A", formatted_address := some "B", rating := some 4,
        user_ratings_total := some 12, place_id := some "pid1",
        business_status := none } = true :=
  prefilter_monotone
    { searchMode := .BUSINESS, minReviews := 5, maxReviews := 50,
      onlyNoWebsite := false, onlyOperational := false, targetLeads := 30 }
    { searchMode := .BUSINESS, minReviews := 1, maxReviews := 10000,
      onlyNoWebsite := false, onlyOperational := false, targetLeads := 30 }
    { name := some "A", formatted_address := some "B", rating := some 4,
      user_ratings_total := some 12, place_id := some "pid1",
      business_status := none }
    (by decide) (by decide) (by decide) (by decide)

/-- C9 counterexample: the input handler stores 80 for the entered value 80,
which exceeds the claimed cap of 60. -/
theorem target_clamp_exceeds_sixty :
    setTargetLeadsClamp 80 = 80 ∧ ¬ (setTargetLeadsClamp 80 ≤ 60) := by
  decide

/-- C9 amended: the stored `targetLeads` never exceeds 100 (the clamp at the
configuration boundary is `min 100`, not 60). -/
theorem target_clamp_at_most_hundred : ∀ v : Int, setTargetLeadsClamp v ≤ 100 := by
  intro v
  exact min_le_left 100 v

end LeadExtractor

namespace LeadExtractor

/-! ### Pagination collector -/

/-- The accumulation buffer never grows past `targetLeads` in the collector's
result: if the buffer is within the target, so is the result. -/
lemma getAllCandidates_length_le (cfg : Config) :
    ∀ (pages : List ProviderPage) (collected : List PlaceResult),
      collected.length ≤ cfg.targetLeads →
      (getAllCandidates cfg pages collected).length ≤ cfg.targetLeads := by
  intro pages
  induction pages with
  | nil => intro collected h; exact h
  | cons page rest ih =>
    intro collected h
    cases page with
    | ok results hasNextPage =>
      unfold getAllCandidates
      dsimp only
      split_ifs with hc
      · have hlt : (collected ++ results.filter (isCandidateAcceptable cfg)).length <
            cfg.targetLeads := by
          rcases Bool.and_eq_true _ _ |>.mp hc with ⟨h1, _⟩
          exact of_decide_eq_true h1
        exact ih _ (le_of_lt hlt)
      · rw [List.length_take]
        exact min_le_left _ _
    | zeroResults => exact h
    | errorStatus => exact h

/-- C4: the pagination collector is a total (hence terminating) function of the
provider's page sequence; the returned candidate list never exceeds
`targetLeads`; a ZERO_RESULTS page halts immediately with the buffer; an OK
page with no next page halts with the truncated buffer regardless of later
pages; and once the accumulated survivors reach `targetLeads` the collector
halts with the truncated buffer regardless of later pages. -/
theorem pagination_termination_bounds :
    (∀ (cfg : Config) (pages : List ProviderPage),
      (getAllCandidates cfg pages []).length ≤ cfg.targetLeads) ∧
    (∀ (cfg : Config) (rest : List ProviderPage) (collected : List PlaceResult),
      getAllCandidates cfg (ProviderPage.zeroResults :: rest) collected = collected) ∧
    (∀ (cfg : Config) (results : List PlaceResult) (rest : List ProviderPage)
        (collected : List PlaceResult),
      getAllCandidates cfg (ProviderPage.ok results false :: rest) collected =
        (collected ++ results.filter (isCandidateAcceptable cfg)).take cfg.targetLeads) ∧
    (∀ (cfg : Config) (results : List PlaceResult) (hasNextPage : Bool)
        (rest : List ProviderPage) (collected : List PlaceResult),
      cfg.targetLeads ≤ (collected ++ results.filter (isCandidateAcceptable cfg)).length →
      getAllCandidates cfg (ProviderPage.ok results hasNextPage :: rest) collected =
        (collected ++ results.filter (isCandidateAcceptable cfg)).take cfg.targetLeads) := by
  refine ⟨fun cfg pages => getAllCandidates_length_le cfg pages [] (Nat.zero_le _),
    fun cfg rest collected => rfl, fun cfg results rest collected => ?_,
    fun cfg results hasNextPage rest collected h => ?_⟩
  · unfold getAllCandidates
    dsimp only
    rw [if_neg]
    simp
  · unfold getAllCandidates
    dsimp only
    rw [if_neg]
    simp only [Bool.and_eq_true, decide_eq_true_iff, not_and]
    intro hlt
    exact absurd hlt (Nat.not_lt.mpr h)

/-- C4 witness: concrete runs of the collector hit the length bound and each
halting condition. -/
theorem pagination_termination_witness :
    (getAllCandidates
      { searchMode := .BUSINESS, minReviews := 0, maxReviews := 10000,
        onlyNoWebsite := false, onlyOperational := false, targetLeads := 1 }
      [ProviderPage.zeroResults] []).length ≤ 1 ∧
    getAllCandidates
      { searchMode := .BUSINESS, minReviews := 0, maxReviews := 10000,
        onlyNoWebsite := false, onlyOperational := false, targetLeads := 1 }
      [ProviderPage.zeroResults] [] = [] ∧
    getAllCandidates
      { searchMode := .BUSINESS, minReviews := 0, maxReviews := 10000,
        onlyNoWebsite := false, onlyOperational := false, targetLeads := 1 }
      [ProviderPage.ok [] false] [] = [] ∧
    getAllCandidates
      { searchMode := .BUSINESS, minReviews := 0, maxReviews := 10000,
        onlyNoWebsite := false, onlyOperational := false, targetLeads := 1 }
      [ProviderPage.ok
        [{ name := some "A", formatted_address := none, rating := none,
           user_ratings_total := some 3, place_id := some "idA",
           business_status := some "OPERATIONAL" },
         { name := some "B", formatted_address := none, rating := none,
           user_ratings_total := some 2, place_id := some "idB",
           business_status := some "OPERATIONAL" }] true,
       ProviderPage.errorStatus] [] =
      [{ name := some "A", formatted_address := none, rating := none,
         user_ratings_total := some 3, place_id := some "idA",
         business_status := some "OPERATIONAL" }] := by
  refine ⟨pagination_termination_bounds.1 _ [ProviderPage.zeroResults],
    pagination_termination_bounds.2.1 _ [] [],
    ?_, ?_⟩
  · rw [pagination_termination_bounds.2.2.1]
    decide
  · rw [pagination_termination_bounds.2.2.2 _ _ true [ProviderPage.errorStatus] []
      (by decide)]
    decide

end LeadExtractor

namespace LeadExtractor

/-! ### The stable descending sort -/

/-- Inserting is a permutation with consing. -/
lemma insertByKey_perm (a : PlaceData) :
    ∀ l : List PlaceData, List.Perm (insertByKey a l) (a :: l) := by
  intro l
  induction l with
  | nil => exact List.Perm.refl _
  | cons b l ih =>
    unfold insertByKey
    split_ifs with h
    · exact List.Perm.refl _
    · exact List.Perm.trans (List.Perm.cons b ih) (List.Perm.swap a b l)

/-- The sort permutes the input. -/
lemma sortByReviews_perm : ∀ l : List PlaceData, List.Perm (sortByReviews l) l := by
  intro l
  induction l with
  | nil => exact List.Perm.refl _
  | cons a l ih =>
    exact List.Perm.trans (insertByKey_perm a (sortByReviews l)) (List.Perm.cons a ih)

/-- Inserting into a list sorted by non-increasing key keeps it sorted. -/
lemma insertByKey_pairwise {a : PlaceData} :
    ∀ {l : List PlaceData}, l.Pairwise (fun x y => sortKey y ≤ sortKey x) →
      (insertByKey a l).Pairwise (fun x y => sortKey y ≤ sortKey x) := by
  intro l
  induction l with
  | nil => intro _; simp [insertByKey]
  | cons b l ih =>
    intro h
    rw [List.pairwise_cons] at h
    obtain ⟨hb, hl⟩ := h
    unfold insertByKey
    split_ifs with hba
    · refine List.Pairwise.cons ?_ (List.Pairwise.cons hb hl)
      intro x hx
      rcases List.mem_cons.mp hx with rfl | hx
      · exact hba
      · exact le_trans (hb x hx) hba
    · refine List.Pairwise.cons ?_ (ih hl)
      intro x hx
      rcases List.mem_cons.mp ((insertByKey_perm a l).mem_iff.mp hx) with rfl | hx2
      · exact le_of_lt (not_le.mp hba)
      · exact hb x hx2

/-- The sorted output has non-increasing keys. -/
lemma sortByReviews_pairwise :
    ∀ l : List PlaceData, (sortByReviews l).Pairwise (fun x y => sortKey y ≤ sortKey x) := by
  intro l
  induction l with
  | nil => exact List.Pairwise.nil
  | cons a l ih => exact insertByKey_pairwise ih

/-- Restricting an insertion to one key class: the inserted element goes in
front exactly when it has that key. -/
lemma filter_insertByKey (a : PlaceData) (k : Nat) :
    ∀ l : List PlaceData,
      (insertByKey a l).filter (fun p => decide (sortKey p = k)) =
        if sortKey a = k then a :: l.filter (fun p => decide (sortKey p = k))
        else l.filter (fun p => decide (sortKey p = k)) := by
  intro l
  induction l with
  | nil => by_cases hak : sortKey a = k <;> simp [insertByKey, hak]
  | cons b l ih =>
    unfold insertByKey
    split_ifs with hba hak hak
    · simp [List.filter_cons, hak]
    · simp [List.filter_cons, hak]
    · have hbk : ¬ sortKey b = k := by
        have hlt := not_le.mp hba
        omega
      simp [List.filter_cons, ih, hak, hbk]
    · simp [List.filter_cons, ih, hak]

/-- Stability: within each key class the sort preserves the input order. -/
lemma filter_sortByReviews (k : Nat) :
    ∀ l : List PlaceData,
      (sortByReviews l).filter (fun p => decide (sortKey p = k)) =
        l.filter (fun p => decide (sortKey p = k)) := by
  intro l
  induction l with
  | nil => rfl
  | cons a l ih =>
    show (insertByKey a (sortByReviews l)).filter _ = _
    rw [filter_insertByKey a k (sortByReviews l), ih]
    by_cases hak : sortKey a = k <;> simp [List.filter_cons, hak]

/-- C7: every successful final set is the stable descending-by-review-count
sort of the discovery-order results: the pipeline output is the sorted list,
its keys (missing review count read as 0) are non-increasing at every pair of
positions, and each key class keeps its discovery order. -/
theorem final_results_sorted_stable :
    ∀ (cfg : Config) (prov : Provider) (rs0 : List PlaceData) (k : Nat),
      rawResults cfg prov = .ok rs0 →
      handleSearchModel cfg prov = .success (sortByReviews rs0) ∧
      (sortByReviews rs0).Pairwise (fun a b => sortKey b ≤ sortKey a) ∧
      (sortByReviews rs0).filter (fun p => decide (sortKey p = k)) =
        rs0.filter (fun p => decide (sortKey p = k)) := by
  intro cfg prov rs0 k h
  refine ⟨?_, sortByReviews_pairwise rs0, filter_sortByReviews k rs0⟩
  unfold handleSearchModel
  rw [h]

end LeadExtractor

namespace LeadExtractor

/-! ### Concrete sample inputs for evaluation -/

/-- A simple-path configuration (all filters at defaults, target 20). -/
def sampleCfgSimple : Config :=
  { searchMode := .BUSINESS, minReviews := 0, maxReviews := 10000,
    onlyNoWebsite := false, onlyOperational := true, targetLeads := 20 }

/-- A complex-path configuration (target above 20 forces pagination). -/
def sampleCfgComplex : Config :=
  { searchMode := .BUSINESS, minReviews := 0, maxReviews := 10000,
    onlyNoWebsite := false, onlyOperational := true, targetLeads := 30 }

/-- A rich raw result with 5 reviews. -/
def samplePlaceA : RawPlaceNew :=
  { displayName := some "Cafe A", formattedAddress := some "Street 1",
    websiteURI := some "http://a.example", nationalPhoneNumber := some "111",
    rating := some 4, userRatingCount := some 5, id := some "idA",
    googleMapsURI := some "gmA", businessStatus := some "OPERATIONAL" }

/-- A rich raw result with 9 reviews. -/
def samplePlaceB : RawPlaceNew :=
  { displayName := some "Cafe B", formattedAddress := some "Street 2",
    websiteURI := none, nationalPhoneNumber := none,
    rating := some 5, userRatingCount := some 9, id := some "idB",
    googleMapsURI := some "gmB", businessStatus := some "OPERATIONAL" }

/-- A provider whose single-shot call returns the two places out of review
order and whose other capabilities are unused. -/
def sampleProvSimple : Provider :=
  { simpleCall := .ok [samplePlaceA, samplePlaceB], pages := [],
    fetchDetails := fun _ => .failure }

/-- An operational legacy candidate with 30 reviews. -/
def sampleCandA : PlaceResult :=
  { name := some "Bar A", formatted_address := some "Ave 1", rating := some 4,
    user_ratings_total := some 30, place_id := some "cidA",
    business_status := some "OPERATIONAL" }

/-- An operational legacy candidate with 7 reviews. -/
def sampleCandB : PlaceResult :=
  { name := some "Bar B", formatted_address := some "Ave 2", rating := some 3,
    user_ratings_total := some 7, place_id := some "cidB",
    business_status := some "OPERATIONAL" }

/-- C7 witness: on the concrete simple-path run the pipeline emits the sorted
list, its keys are non-increasing, and the 9-review class keeps its order. -/
theorem final_results_sorted_stable_witness :
    handleSearchModel sampleCfgSimple sampleProvSimple =
      .success (sortByReviews (simplePath sampleCfgSimple [samplePlaceA, samplePlaceB])) ∧
    (sortByReviews (simplePath sampleCfgSimple [samplePlaceA, samplePlaceB])).Pairwise
      (fun a b => sortKey b ≤ sortKey a) ∧
    (sortByReviews (simplePath sampleCfgSimple [samplePlaceA, samplePlaceB])).filter
        (fun p => decide (sortKey p = 9)) =
      (simplePath sampleCfgSimple [samplePlaceA, samplePlaceB]).filter
        (fun p => decide (sortKey p = 9)) :=
  final_results_sorted_stable sampleCfgSimple sampleProvSimple
    (simplePath sampleCfgSimple [samplePlaceA, samplePlaceB]) 9 rfl

/-! ### Freshness of produced records -/

/-- A record the enricher emits keeps the candidate's identifier and carries
the default CRM fields. -/
lemma enrichOne_eq_some {cfg : Config} {fetch : PlaceResult → FetchOutcome}
    {c : PlaceResult} {r : PlaceData} (h : enrichOne cfg fetch c = some r) :
    r.place_id = c.place_id ∧ r.status = CrmStatus.Pendiente ∧ r.notes = "" := by
  unfold enrichOne at h
  by_cases h1 : (!jsTruthyStr c.place_id) = true
  · rw [if_pos h1] at h
    exact absurd h (by simp)
  · rw [if_neg h1] at h
    cases hf : fetch c with
    | failure => rw [hf] at h; exact absurd h (by simp)
    | success place =>
      rw [hf] at h
      dsimp only at h
      by_cases h2 : (cfg.onlyNoWebsite && jsTruthyStr place.websiteURI) = true
      · rw [if_pos h2] at h
        exact absurd h (by simp)
      · rw [if_neg h2] at h
        cases h
        exact ⟨rfl, rfl, rfl⟩

/-- Membership in an enriched batch comes from some candidate. -/
lemma mem_enrichBatch {cfg : Config} {fetch : PlaceResult → FetchOutcome}
    {candidates : List PlaceResult} {r : PlaceData}
    (h : r ∈ enrichBatch cfg fetch candidates) :
    ∃ c ∈ candidates, enrichOne cfg fetch c = some r := by
  unfold enrichBatch at h
  simp only [List.mem_filterMap, List.mem_map, id] at h
  obtain ⟨x, ⟨c, hc, hx⟩, hxr⟩ := h
  exact ⟨c, hc, by rw [hx, hxr]⟩

/-- Every record of a successful raw (pre-sort) result set is fresh. -/
lemma fresh_of_mem_rawResults {cfg : Config} {prov : Provider}
    {rs : List PlaceData} (h : rawResults cfg prov = .ok rs) {r : PlaceData}
    (hr : r ∈ rs) : r.status = CrmStatus.Pendiente ∧ r.notes = "" := by
  unfold rawResults at h
  split_ifs at h with hc
  · cases h
    obtain ⟨c, _, hco⟩ := mem_enrichBatch hr
    exact (enrichOne_eq_some hco).2
  · cases hs : prov.simpleCall with
    | error msg => rw [hs] at h; exact absurd h (by simp)
    | ok places =>
      rw [hs] at h
      cases h
      obtain ⟨p, _, hp⟩ := List.mem_map.mp hr
      rw [← hp]
      exact ⟨rfl, rfl⟩

/-- C10: starting a search clears the working set; the post-search working set
is a function of the configuration and the provider responses alone (no record
of the previous working set survives); and every record it holds carries the
default CRM status and empty notes. -/
theorem search_replaces_working_set :
    ∀ (st st2 : AppState) (cfg : Config) (prov : Provider),
      (startSearch st).results = [] ∧
      (handleSearchStep st cfg prov).results = (handleSearchStep st2 cfg prov).results ∧
      (handleSearchStep st cfg prov).results.all freshRecord = true := by
  intro st st2 cfg prov
  refine ⟨rfl, ?_, ?_⟩
  · unfold handleSearchStep finishSearch
    cases handleSearchModel cfg prov <;> rfl
  · unfold handleSearchStep finishSearch
    cases h : handleSearchModel cfg prov with
    | failure msg => rfl
    | success rs =>
      unfold handleSearchModel at h
      cases hraw : rawResults cfg prov with
      | error msg => rw [hraw] at h; exact absurd h (by simp)
      | ok rs0 =>
        rw [hraw] at h
        have hrs : rs = sortByReviews rs0 := by
          cases h
          rfl
        rw [List.all_eq_true]
        intro r hrmem
        have hr0 : r ∈ rs0 :=
          (sortByReviews_perm rs0).mem_iff.mp (hrs ▸ hrmem)
        obtain ⟨h1, h2⟩ := fresh_of_mem_rawResults hraw hr0
        simp only [freshRecord, h1, h2]
        decide

end LeadExtractor

namespace LeadExtractor

/-! ### Enrichment partial-failure accounting -/

/-- C5: over a batch of M candidates that all carry a truthy identifier and
for which no post-fetch drop applies, the enrichment stage (which absorbs each
rejected fetch into a `none` for that candidate only, never propagating it)
returns exactly M minus the number of failed fetches non-null records. -/
theorem enrichment_partial_failure :
    ∀ (cfg : Config) (fetch : PlaceResult → FetchOutcome) (candidates : List PlaceResult),
      (∀ c ∈ candidates, jsTruthyStr c.place_id = true) →
      (∀ c ∈ candidates, ∀ place, fetch c = FetchOutcome.success place →
        (cfg.onlyNoWebsite && jsTruthyStr place.websiteURI) = false) →
      (enrichBatch cfg fetch candidates).length =
        candidates.length -
          (candidates.filter (fun c => (fetch c).isFailure)).length := by
  intro cfg fetch candidates
  induction candidates with
  | nil => intro _ _; rfl
  | cons c cs ih =>
    intro hpid hweb
    have hc := hpid c (List.mem_cons_self c cs)
    have ihh := ih (fun x hx => hpid x (List.mem_cons_of_mem c hx))
      (fun x hx => hweb x (List.mem_cons_of_mem c hx))
    cases hf : fetch c with
    | failure =>
      have he : enrichOne cfg fetch c = none := by
        simp [enrichOne, hc, hf]
      have hb : enrichBatch cfg fetch (c :: cs) = enrichBatch cfg fetch cs := by
        simp [enrichBatch, List.filterMap_cons, he]
      have hfl : ((c :: cs).filter (fun x => (fetch x).isFailure)).length =
          (cs.filter (fun x => (fetch x).isFailure)).length + 1 := by
        rw [List.filter_cons]
        simp [hf, FetchOutcome.isFailure]
      rw [hb, ihh, hfl]
      simp only [List.length_cons]
      omega
    | success place =>
      have hw := hweb c (List.mem_cons_self c cs) place hf
      have he : (enrichOne cfg fetch c).isSome = true := by
        simp [enrichOne, hc, hf, hw]
      obtain ⟨r, hr⟩ := Option.isSome_iff_exists.mp he
      have hb : enrichBatch cfg fetch (c :: cs) = r :: enrichBatch cfg fetch cs := by
        simp [enrichBatch, List.filterMap_cons, hr]
      have hfl : (c :: cs).filter (fun x => (fetch x).isFailure) =
          cs.filter (fun x => (fetch x).isFailure) := by
        rw [List.filter_cons]
        simp [hf, FetchOutcome.isFailure]
      have hle : (cs.filter (fun x => (fetch x).isFailure)).length ≤ cs.length :=
        List.length_filter_le _ _
      rw [hb, hfl]
      simp only [List.length_cons, ihh]
      omega

/-- A detail-fetch oracle that fails exactly on the candidate with id
`cidB`. -/
def sampleFetch : PlaceResult → FetchOutcome := fun c =>
  if c.place_id = some "cidB" then .failure else .success samplePlaceB

/-- C5 witness: of the two concrete candidates exactly one fetch fails and
exactly one enriched record comes back. -/
theorem enrichment_partial_failure_witness :
    (enrichBatch sampleCfgComplex sampleFetch [sampleCandA, sampleCandB]).length =
      [sampleCandA, sampleCandB].length -
        ([sampleCandA, sampleCandB].filter
          (fun c => (sampleFetch c).isFailure)).length :=
  enrichment_partial_failure sampleCfgComplex sampleFetch [sampleCandA, sampleCandB]
    (by decide)
    (fun c hc place hp => by simp [sampleCfgComplex])

/-! ### Error handling of the pagination collector -/

/-- A complex configuration forced by a review-count lower bound. -/
def sampleCfgMinReviews : Config :=
  { searchMode := .BUSINESS, minReviews := 50, maxReviews := 10000,
    onlyNoWebsite := false, onlyOperational := true, targetLeads := 20 }

/-- A provider whose very first legacy page reports an error status. -/
def sampleProvErrorFirst : Provider :=
  { simpleCall := .error "ignored", pages := [ProviderPage.errorStatus],
    fetchDetails := fun _ => .failure }

/-- A provider whose single-shot call rejects with a quota message. -/
def sampleProvSimpleError : Provider :=
  { simpleCall := .error "QUOTA", pages := [],
    fetchDetails := fun _ => .failure }

/-- C3 counterexample: with a transport error on the Pagination Collector's
first page, the pipeline still produces a success outcome (the empty result
set) instead of a terminal failure. -/
theorem first_page_error_yields_success :
    handleSearchModel sampleCfgMinReviews sampleProvErrorFirst =
      SearchOutcome.success [] := rfl

/-- C3 amended: an error status on the Pagination Collector's first page is
absorbed — the collector resolves with what was collected (nothing) and the
pipeline reports success with an empty set; a terminal failure with the
provider's message attached arises only from the Simple path's thrown
error. -/
theorem provider_error_absorbed :
    (∀ (cfg : Config) (prov : Provider) (rest : List ProviderPage),
      needsComplexFetch cfg = true →
      prov.pages = ProviderPage.errorStatus :: rest →
      handleSearchModel cfg prov = SearchOutcome.success []) ∧
    (∀ (cfg : Config) (prov : Provider) (msg : String),
      needsComplexFetch cfg = false →
      prov.simpleCall = Except.error msg →
      handleSearchModel cfg prov = SearchOutcome.failure ("Search failed: " ++ msg)) := by
  constructor
  · intro cfg prov rest h hp
    unfold handleSearchModel rawResults
    rw [h, hp]
    rfl
  · intro cfg prov msg h hs
    unfold handleSearchModel rawResults
    rw [h, hs]
    rfl

/-- C3 witness: the two error behaviours on concrete inputs. -/
theorem provider_error_absorbed_witness :
    handleSearchModel sampleCfgComplex
      { simpleCall := .error "ignored", pages := [ProviderPage.errorStatus, ProviderPage.zeroResults],
        fetchDetails := fun _ => .failure } = SearchOutcome.success [] ∧
    handleSearchModel sampleCfgSimple sampleProvSimpleError =
      SearchOutcome.failure ("Search failed: " ++ "QUOTA") :=
  ⟨provider_error_absorbed.1 sampleCfgComplex
      { simpleCall := .error "ignored", pages := [ProviderPage.errorStatus, ProviderPage.zeroResults],
        fetchDetails := fun _ => .failure } [ProviderPage.zeroResults] (by decide) rfl,
    provider_error_absorbed.2 sampleCfgSimple sampleProvSimpleError "QUOTA" (by decide) rfl⟩

end LeadExtractor

namespace LeadExtractor

/-! ### Identifier flow through the pipeline -/

/-- The collector only ever returns raw results delivered by the provider's
pages, in order. -/
lemma getAllCandidates_sublist (cfg : Config) :
    ∀ (pages : List ProviderPage) (collected : List PlaceResult),
      List.Sublist (getAllCandidates cfg pages collected)
        (collected ++ pagesResults pages) := by
  intro pages
  induction pages with
  | nil =>
    intro collected
    exact List.sublist_append_left collected _
  | cons page rest ih =>
    intro collected
    cases page with
    | ok results hasNextPage =>
      unfold getAllCandidates
      dsimp only
      have hpr : pagesResults (ProviderPage.ok results hasNextPage :: rest) =
          results ++ pagesResults rest := by
        simp [pagesResults]
      rw [hpr]
      have hfr : List.Sublist (results.filter (isCandidateAcceptable cfg)) results :=
        List.filter_sublist results
      split_ifs with h
      · refine (ih _).trans ?_
        rw [List.append_assoc]
        exact List.Sublist.append_left
          (List.Sublist.append hfr (List.Sublist.refl _)) collected
      · refine (List.take_sublist _ _).trans ?_
        exact List.Sublist.append_left
          (hfr.trans (List.sublist_append_left results _)) collected
    | zeroResults => exact List.sublist_append_left collected _
    | errorStatus => exact List.sublist_append_left collected _

/-- An emitted record's identifier was truthy on its candidate. -/
lemma enrichOne_some_truthy {cfg : Config} {fetch : PlaceResult → FetchOutcome}
    {c : PlaceResult} {r : PlaceData} (h : enrichOne cfg fetch c = some r) :
    jsTruthyStr c.place_id = true := by
  unfold enrichOne at h
  by_cases h1 : (!jsTruthyStr c.place_id) = true
  · rw [if_pos h1] at h
    exact absurd h (by simp)
  · simpa using h1

/-- The identifiers of an enriched batch are, in order, among the identifiers
of its candidates. -/
lemma externalIds_enrichBatch_sublist (cfg : Config)
    (fetch : PlaceResult → FetchOutcome) :
    ∀ cs : List PlaceResult,
      List.Sublist (externalIds (enrichBatch cfg fetch cs))
        (cs.filterMap (fun c => c.place_id)) := by
  intro cs
  induction cs with
  | nil => exact List.Sublist.refl _
  | cons c cs ih =>
    cases ho : enrichOne cfg fetch c with
    | none =>
      have hb : enrichBatch cfg fetch (c :: cs) = enrichBatch cfg fetch cs := by
        simp [enrichBatch, List.filterMap_cons, ho]
      rw [hb]
      exact ih.trans ((List.sublist_cons_self c cs).filterMap _)
    | some r =>
      have hb : enrichBatch cfg fetch (c :: cs) = r :: enrichBatch cfg fetch cs := by
        simp [enrichBatch, List.filterMap_cons, ho]
      have hpid := (enrichOne_eq_some ho).1
      have ht := enrichOne_some_truthy ho
      cases hc : c.place_id with
      | none => rw [hc] at ht; exact absurd ht (by simp [jsTruthyStr])
      | some pid =>
        rw [hb]
        have h1 : externalIds (r :: enrichBatch cfg fetch cs) =
            pid :: externalIds (enrichBatch cfg fetch cs) := by
          simp [externalIds, List.filterMap_cons, hpid, hc]
        have h2 : (c :: cs).filterMap (fun x => x.place_id) =
            pid :: cs.filterMap (fun x => x.place_id) := by
          simp [List.filterMap_cons, hc]
        rw [h1, h2]
        exact ih.cons₂ pid

/-- The identifiers of the fast path are the identifiers of the operational
raw results. -/
lemma externalIds_simplePath (cfg : Config) (places : List RawPlaceNew) :
    externalIds (simplePath cfg places) =
      (places.filter (keepOperationalSimple cfg)).filterMap (fun p => p.id) := by
  unfold externalIds simplePath
  rw [List.filterMap_map]
  rfl

/-- C1 counterexample input: the provider's two pages overlap, delivering the
same candidate twice. -/
def sampleProvDupPages : Provider :=
  { simpleCall := .error "unused",
    pages := [ProviderPage.ok [sampleCandA] true, ProviderPage.ok [sampleCandA] false],
    fetchDetails := fun _ => .success samplePlaceB }

/-- The record both enrichments of the duplicated candidate produce. -/
def sampleDupRecord : PlaceData :=
  { name := some "Cafe B", address := some "Street 2", website := none,
    phone := none, rating := some 4, reviews := some 30,
    place_id := some "cidA", google_maps_link := some "gmB",
    status := .Pendiente, notes := "" }

/-- C1 counterexample: with overlapping pages the final successful result set
holds two records with the same externalId — the pipeline never
deduplicates. -/
theorem dedup_violation_duplicate_pages :
    handleSearchModel sampleCfgComplex sampleProvDupPages =
      SearchOutcome.success [sampleDupRecord, sampleDupRecord] ∧
    ¬ (externalIds [sampleDupRecord, sampleDupRecord]).Nodup :=
  ⟨rfl, by decide⟩

/-- C1 amended: the pipeline preserves — but does not enforce — identifier
distinctness: if the raw results the provider delivers across the legacy pages
have pairwise distinct present identifiers, and likewise any single-shot
response, then every successful final set has pairwise distinct
externalIds. -/
theorem dedup_preserved_when_provider_distinct :
    ∀ (cfg : Config) (prov : Provider) (rs : List PlaceData),
      handleSearchModel cfg prov = SearchOutcome.success rs →
      ((pagesResults prov.pages).filterMap (fun c => c.place_id)).Nodup →
      (∀ places, prov.simpleCall = Except.ok places →
        (places.filterMap (fun p => p.id)).Nodup) →
      (externalIds rs).Nodup := by
  intro cfg prov rs h hpages hsimple
  unfold handleSearchModel at h
  cases hraw : rawResults cfg prov with
  | error msg => rw [hraw] at h; exact absurd h (by simp)
  | ok rs0 =>
    rw [hraw] at h
    have hrs : rs = sortByReviews rs0 := by
      cases h
      rfl
    have hperm : List.Perm (externalIds rs) (externalIds rs0) := by
      rw [hrs]
      exact (sortByReviews_perm rs0).filterMap _
    refine hperm.nodup_iff.mpr ?_
    unfold rawResults at hraw
    split_ifs at hraw with hc
    · cases hraw
      have h1 := getAllCandidates_sublist cfg prov.pages []
      rw [List.nil_append] at h1
      have h2 := externalIds_enrichBatch_sublist cfg prov.fetchDetails
        (getAllCandidates cfg prov.pages [])
      exact List.Nodup.sublist (h2.trans (h1.filterMap _)) hpages
    · cases hs : prov.simpleCall with
      | error msg => rw [hs] at hraw; exact absurd hraw (by simp)
      | ok places =>
        rw [hs] at hraw
        cases hraw
        rw [externalIds_simplePath]
        exact List.Nodup.sublist
          ((List.filter_sublist places).filterMap _) (hsimple places hs)

/-- C1 witness input: two pages with distinct candidates. -/
def sampleProvTwoPages : Provider :=
  { simpleCall := .ok [],
    pages := [ProviderPage.ok [sampleCandA] true, ProviderPage.ok [sampleCandB] false],
    fetchDetails := fun _ => .success samplePlaceB }

/-- C1 witness: on a concrete run with distinct provider identifiers the final
set's externalIds are distinct. -/
theorem dedup_preserved_witness :
    (externalIds (sortByReviews (enrichBatch sampleCfgComplex
      sampleProvTwoPages.fetchDetails
      (getAllCandidates sampleCfgComplex sampleProvTwoPages.pages [])))).Nodup :=
  dedup_preserved_when_provider_distinct sampleCfgComplex sampleProvTwoPages
    (sortByReviews (enrichBatch sampleCfgComplex sampleProvTwoPages.fetchDetails
      (getAllCandidates sampleCfgComplex sampleProvTwoPages.pages [])))
    rfl (by decide) (fun places hp => by cases hp; decide)

end LeadExtractor

namespace LeadExtractor

/-! ### Tier field integrity -/

/-- Inversion of a successful enrichment: the rich optional fields of the
emitted record come from the detail response (website, phone) and from the
low-detail candidate (rating, review count), gated by the mode. -/
lemma enrichOne_some_fields {cfg : Config} {fetch : PlaceResult → FetchOutcome}
    {c : PlaceResult} {place : RawPlaceNew} {r : PlaceData}
    (hf : fetch c = FetchOutcome.success place)
    (h : enrichOne cfg fetch c = some r) :
    r.website = (if cfg.searchMode = SearchMode.PRO then none else place.websiteURI) ∧
    r.phone = (if cfg.searchMode = SearchMode.PRO then none else place.nationalPhoneNumber) ∧
    r.rating = (if cfg.searchMode = SearchMode.PRO then none else c.rating) ∧
    r.reviews = (if cfg.searchMode = SearchMode.PRO then none else c.user_ratings_total) := by
  unfold enrichOne at h
  by_cases h1 : (!jsTruthyStr c.place_id) = true
  · rw [if_pos h1] at h
    exact absurd h (by simp)
  · rw [if_neg h1, hf] at h
    dsimp only at h
    by_cases h2 : (cfg.onlyNoWebsite && jsTruthyStr place.websiteURI) = true
    · rw [if_pos h2] at h
      exact absurd h (by simp)
    · rw [if_neg h2] at h
      cases h
      exact ⟨rfl, rfl, rfl, rfl⟩

/-- An all-none candidate whose detail response does carry a rating. -/
def sampleCandNoRating : PlaceResult :=
  { name := some "Bar C", formatted_address := some "Ave 3", rating := none,
    user_ratings_total := none, place_id := some "cidC",
    business_status := some "OPERATIONAL" }

/-- The record the BUSINESS-tier enrichment produces for that candidate. -/
def sampleRecordNoRating : PlaceData :=
  { name := some "Cafe B", address := some "Street 2", website := none,
    phone := none, rating := none, reviews := none, place_id := some "cidC",
    google_maps_link := some "gmB", status := .Pendiente, notes := "" }

/-- C8 counterexample: under the Rich (BUSINESS) tier on the complex path, the
detail response supplies a rating and a review count, yet the produced record
leaves both absent — they are copied from the low-detail candidate, not from
the detail fetch. -/
theorem rich_tier_ignores_detail_rating :
    samplePlaceB.rating = some 5 ∧
    samplePlaceB.userRatingCount = some 9 ∧
    sampleCfgComplex.searchMode = SearchMode.BUSINESS ∧
    enrichOne sampleCfgComplex (fun _ => FetchOutcome.success samplePlaceB)
      sampleCandNoRating = some sampleRecordNoRating ∧
    sampleRecordNoRating.rating = none ∧
    sampleRecordNoRating.reviews = none :=
  ⟨rfl, rfl, rfl, rfl, rfl, rfl⟩

/-- C8 amended: a record normalized under the Lean (PRO) tier never populates
website, phone, rating, or reviewCount, on both paths; a record normalized
under the Rich (BUSINESS) tier populates them from the single-shot response on
the Simple path, while on the Complex path website and phone come from the
detail response and rating and reviewCount from the low-detail candidate
(each populated exactly when that particular source supplied it). -/
theorem tier_field_integrity_amended :
    (∀ (cfg : Config) (p : RawPlaceNew), cfg.searchMode = SearchMode.PRO →
      (normalizeSimple cfg p).website = none ∧ (normalizeSimple cfg p).phone = none ∧
      (normalizeSimple cfg p).rating = none ∧ (normalizeSimple cfg p).reviews = none) ∧
    (∀ (cfg : Config) (fetch : PlaceResult → FetchOutcome) (c : PlaceResult)
        (r : PlaceData), cfg.searchMode = SearchMode.PRO →
      enrichOne cfg fetch c = some r →
      r.website = none ∧ r.phone = none ∧ r.rating = none ∧ r.reviews = none) ∧
    (∀ (cfg : Config) (p : RawPlaceNew), cfg.searchMode = SearchMode.BUSINESS →
      (normalizeSimple cfg p).website = p.websiteURI ∧
      (normalizeSimple cfg p).phone = p.nationalPhoneNumber ∧
      (normalizeSimple cfg p).rating = p.rating ∧
      (normalizeSimple cfg p).reviews = p.userRatingCount) ∧
    (∀ (cfg : Config) (fetch : PlaceResult → FetchOutcome) (c : PlaceResult)
        (place : RawPlaceNew) (r : PlaceData), cfg.searchMode = SearchMode.BUSINESS →
      fetch c = FetchOutcome.success place →
      enrichOne cfg fetch c = some r →
      r.website = place.websiteURI ∧ r.phone = place.nationalPhoneNumber ∧
      r.rating = c.rating ∧ r.reviews = c.user_ratings_total) := by
  refine ⟨fun cfg p h => ?_, fun cfg fetch c r h he => ?_, fun cfg p h => ?_,
    fun cfg fetch c place r h hf he => ?_⟩
  · simp [normalizeSimple, h]
  · cases hf : fetch c with
    | failure =>
      exfalso
      unfold enrichOne at he
      by_cases h1 : (!jsTruthyStr c.place_id) = true
      · rw [if_pos h1] at he
        exact absurd he (by simp)
      · rw [if_neg h1, hf] at he
        exact absurd he (by simp)
    | success place =>
      have := enrichOne_some_fields hf he
      simpa [h] using this
  · simp [normalizeSimple, h]
  · have := enrichOne_some_fields hf he
    simpa [h] using this

/-- A PRO-mode configuration on the complex path. -/
def sampleCfgPro : Config :=
  { searchMode := .PRO, minReviews := 0, maxReviews := 10000,
    onlyNoWebsite := false, onlyOperational := true, targetLeads := 30 }

/-- The record the PRO-tier enrichment produces for `sampleCandA`. -/
def sampleRecordProA : PlaceData :=
  { name := some "Cafe B", address := some "Street 2", website := none,
    phone := none, rating := none, reviews := none, place_id := some "cidA",
    google_maps_link := some "gmB", status := .Pendiente, notes := "" }

/-- The record the BUSINESS-tier enrichment produces for `sampleCandA`. -/
def sampleRecordBizA : PlaceData :=
  { name := some "Cafe B", address := some "Street 2", website := none,
    phone := none, rating := some 4, reviews := some 30,
    place_id := some "cidA", google_maps_link := some "gmB",
    status := .Pendiente, notes := "" }

/-- C8 witness: the four tier behaviours on concrete records. -/
theorem tier_field_integrity_witness :
    ((normalizeSimple sampleCfgPro samplePlaceA).website = none ∧
      (normalizeSimple sampleCfgPro samplePlaceA).phone = none ∧
      (normalizeSimple sampleCfgPro samplePlaceA).rating = none ∧
      (normalizeSimple sampleCfgPro samplePlaceA).reviews = none) ∧
    (sampleRecordProA.website = none ∧ sampleRecordProA.phone = none ∧
      sampleRecordProA.rating = none ∧ sampleRecordProA.reviews = none) ∧
    ((normalizeSimple sampleCfgSimple samplePlaceA).website = samplePlaceA.websiteURI ∧
      (normalizeSimple sampleCfgSimple samplePlaceA).phone =
        samplePlaceA.nationalPhoneNumber ∧
      (normalizeSimple sampleCfgSimple samplePlaceA).rating = samplePlaceA.rating ∧
      (normalizeSimple sampleCfgSimple samplePlaceA).reviews =
        samplePlaceA.userRatingCount) ∧
    (sampleRecordBizA.website = samplePlaceB.websiteURI ∧
      sampleRecordBizA.phone = samplePlaceB.nationalPhoneNumber ∧
      sampleRecordBizA.rating = sampleCandA.rating ∧
      sampleRecordBizA.reviews = sampleCandA.user_ratings_total) :=
  ⟨tier_field_integrity_amended.1 sampleCfgPro samplePlaceA rfl,
    tier_field_integrity_amended.2.1 sampleCfgPro (fun _ => FetchOutcome.success samplePlaceB)
      sampleCandA sampleRecordProA rfl rfl,
    tier_field_integrity_amended.2.2.1 sampleCfgSimple samplePlaceA rfl,
    tier_field_integrity_amended.2.2.2 sampleCfgSimple
      (fun _ => FetchOutcome.success samplePlaceB) sampleCandA samplePlaceB
      sampleRecordBizA rfl rfl rfl⟩

end LeadExtractor

namespace LeadExtractor

/-- C2 witness: the characterization instantiated on a concrete complex
configuration and provider. -/
theorem strategy_selection_witness :
    (needsComplexFetch sampleCfgComplex = true ↔
      (20 < sampleCfgComplex.targetLeads ∨ 0 < sampleCfgComplex.minReviews ∨
        sampleCfgComplex.maxReviews < 10000 ∨ sampleCfgComplex.onlyNoWebsite = true ∨
        sampleCfgComplex.onlyOperational = false)) ∧
    selectedFields sampleCfgComplex =
      (if sampleCfgComplex.searchMode = SearchMode.PRO then proFields
        else businessFields) ∧
    rawResults sampleCfgComplex sampleProvSimple =
      (if needsComplexFetch sampleCfgComplex then
        Except.ok (enrichBatch sampleCfgComplex sampleProvSimple.fetchDetails
          (getAllCandidates sampleCfgComplex sampleProvSimple.pages []))
      else
        match sampleProvSimple.simpleCall with
        | .error msg => .error msg
        | .ok places => .ok (simplePath sampleCfgComplex places)) :=
  ⟨(strategy_selection_characterization sampleCfgComplex).1,
    (strategy_selection_characterization sampleCfgComplex).2.1,
    (strategy_selection_characterization sampleCfgComplex).2.2 sampleProvSimple⟩

end LeadExtractor
